import Mathlib

/-!
Verification of the core decision-engine algorithms of the funky-gemma
repository: the momentum/friction/resistance scoring engine
(`MomentumCalculator`, `HabitStateEngine`), the laundry depletion
forecaster (`LaundryPredictor`), the inference router (`HybridRouter`),
the inference fallback chain (`CactusRuntime`), and the tool dispatch
layer (`ToolExecutor` with its four registered handlers).

JavaScript numbers are modelled as exact rationals (`ℚ`); the one
genuinely real-valued computation, `Math.pow(0.5, h/36)` in the recency
factor, is modelled over `ℝ` with real exponentiation.  Nullable numbers
(`number | null`) are modelled as `Option ℚ`; JS truthiness tests on them
(`!x`, which is true for both `null` and `0`) are modelled faithfully.
Timestamps are milliseconds.  The ambient clock (`Date.now()`) is passed
explicitly as a `now` parameter.
-/

namespace FunkyGemma

/-- JS values as they occur in tool-call argument records
(`Record<string, unknown>`). -/
inductive JValue where
  | str (s : String)
  | num (q : ℚ)
  | bool (b : Bool)
  | null
deriving DecidableEq, Repr

/-- JS truthiness of a possibly-absent value (`undefined` = `none`). -/
def jsTruthy : Option JValue → Bool
  | none => false
  | some (.str s) => s ≠ ""
  | some (.num q) => q ≠ 0
  | some (.bool b) => b
  | some .null => false

/-- Association-list lookup (JS object property access). -/
def alistLookup {α : Type} (l : List (String × α)) (k : String) : Option α :=
  match l.find? (fun p => p.1 = k) with
  | some p => some p.2
  | none => none

/-- Set (or add) a key in an association list (JS property assignment). -/
def alistSet {α : Type} (l : List (String × α)) (k : String) (v : α) :
    List (String × α) :=
  match l with
  | [] => [(k, v)]
  | (k', v') :: rest =>
      if k' = k then (k', v) :: rest else (k', v') :: alistSet rest k v

-- ─── Habit state (src/types/index.ts) ────────────────────────────────────────

/-- `NudgeRecord` from `src/types/index.ts`; `outcome` is one of
`"completed" | "dismissed" | "snoozed" | "ignored"` or `null` (pending). -/
structure NudgeRecord where
  timestamp : ℚ
  tone : String
  message : String
  outcome : Option String
deriving DecidableEq, Repr

/-- `TimeWindow` from `src/types/index.ts`. -/
structure TimeWindow where
  startHour : ℚ
  endHour : ℚ
  dayOfWeek : List ℕ
  weight : ℚ
deriving DecidableEq, Repr

/-- `HabitState` from `src/types/index.ts`.  The open `metadata` record is
modelled as a generic string-keyed map of JS values. -/
structure HabitState where
  id : String
  name : String
  category : String
  streak_count : ℚ
  last_completion_timestamp : Option ℚ
  completion_rate_7d : ℚ
  preferred_time_windows : List TimeWindow
  resistance_score : ℚ
  friction_score : ℚ
  momentum_score : ℤ
  cooldown_until : ℚ
  recent_nudge_outcomes : List NudgeRecord
  created_at : ℚ
  metadata : List (String × JValue)
deriving DecidableEq, Repr

/-- The typed laundry metadata of `LaundryState` (src/types/index.ts). -/
structure LaundryMeta where
  total_gym_clothes : ℚ
  clean_count : ℚ
  dirty_count : ℚ
  last_wash_timestamp : Option ℚ
  gym_days : List ℕ
  avg_clothes_per_session : ℚ
  depletion_rate : ℚ
  predicted_depletion_date : Option ℚ
deriving DecidableEq, Repr

/-- `LaundryState extends HabitState` with the typed metadata; modelled as
the pair of the base habit fields and the typed metadata record. -/
structure LaundryState where
  base : HabitState
  metadata : LaundryMeta
deriving DecidableEq, Repr

-- ─── LaundryPredictor (src/core/habits/LaundryPredictor.ts) ──────────────────

/-- Urgency levels of a `DepletionForecast`. -/
inductive Urgency where
  | none
  | low
  | medium
  | high
  | critical
deriving DecidableEq, Repr

/-- `DepletionForecast` returned by `predictDepletion`. -/
structure DepletionForecast where
  days_until_depletion : ℕ
  recommended_wash_by : ℚ
  urgency : Urgency
  clean_after_next_gym : ℚ
  gym_sessions_until_empty : ℤ
deriving DecidableEq, Repr

/-- `getUpcomingGymDays`: the day offsets `1..lookAheadDays` whose weekday
`(currentDayOfWeek + d) % 7` is a gym day. -/
def getUpcomingGymDays (gymDays : List ℕ) (currentDayOfWeek : ℕ)
    (lookAheadDays : ℕ) : List ℕ :=
  (List.range' 1 lookAheadDays).filter
    (fun d => gymDays.contains ((currentDayOfWeek + d) % 7))

/-- The `for (const daysAhead of upcomingGymDays)` loop of
`predictDepletion`: subtract the per-session consumption on each upcoming
gym day, breaking at the first offset where the remainder is `≤ 0`.
Returns the final remainder together with `daysUntilDepletion`
(still `0`, its initialisation value, when the loop never breaks). -/
def depletionWalk (rate : ℚ) : List ℕ → ℚ → ℚ × ℕ
  | [], clean => (clean, 0)
  | d :: rest, clean =>
      let c := clean - rate
      if c ≤ 0 then (c, d) else depletionWalk rate rest c

/-- `categorizeUrgency` from `LaundryPredictor.ts`. -/
def categorizeUrgency (daysUntilDepletion : ℕ) : Urgency :=
  if daysUntilDepletion ≤ 0 then .critical
  else if daysUntilDepletion ≤ 1 then .high
  else if daysUntilDepletion ≤ 3 then .medium
  else if daysUntilDepletion ≤ 5 then .low
  else .none

/-- `predictDepletion` from `LaundryPredictor.ts`.  The source derives
`currentDay` as `new Date(now).getDay()` (platform local-time weekday);
that clock-to-weekday conversion is kept abstract by passing `currentDay`
explicitly.  `gym_sessions_until_empty` uses exact rational division
(`Math.floor(clean/avg)`); the JS `avg = 0` corner (which would give
`Infinity`) is not modelled — no claim touches that field. -/
def predictDepletion (state : LaundryState) (currentDay : ℕ) (now : ℚ) :
    DepletionForecast :=
  let meta := state.metadata
  let upcomingGymDays := getUpcomingGymDays meta.gym_days currentDay 14
  let sessionsUntilEmpty : ℤ :=
    ⌊meta.clean_count / meta.avg_clothes_per_session⌋
  let walk := depletionWalk meta.avg_clothes_per_session upcomingGymDays
    meta.clean_count
  let daysUntilDepletion : ℕ := if 0 < walk.1 then 14 else walk.2
  let cleanAfterNextGym : ℚ :=
    max 0 (meta.clean_count - meta.avg_clothes_per_session)
  let washBuffer : ℕ := if 3 < daysUntilDepletion then 2 else 1
  let recommendedWashDay : ℕ := daysUntilDepletion - washBuffer
  let recommendedWashBy : ℚ := now + recommendedWashDay * (24 * 60 * 60 * 1000)
  { days_until_depletion := daysUntilDepletion
    recommended_wash_by := recommendedWashBy
    urgency := categorizeUrgency daysUntilDepletion
    clean_after_next_gym := cleanAfterNextGym
    gym_sessions_until_empty := sessionsUntilEmpty }

/-- `consumeGymClothes` from `LaundryPredictor.ts`. -/
def consumeGymClothes (state : LaundryState) : LaundryState :=
  let newClean := max 0 (state.metadata.clean_count -
    state.metadata.avg_clothes_per_session)
  let consumed := state.metadata.clean_count - newClean
  { state with
    metadata := { state.metadata with
      clean_count := newClean
      dirty_count := state.metadata.dirty_count + consumed } }

/-- `washClothes` from `LaundryPredictor.ts` (`Date.now()` passed as
`now`). -/
def washClothes (state : LaundryState) (now : ℚ) : LaundryState :=
  { state with
    base := { state.base with last_completion_timestamp := some now }
    metadata := { state.metadata with
      clean_count := state.metadata.clean_count + state.metadata.dirty_count
      dirty_count := 0
      last_wash_timestamp := some now } }

/-- `laundryFrictionBoost` from `LaundryPredictor.ts`. -/
def laundryFrictionBoost (forecast : DepletionForecast) : ℚ :=
  match forecast.urgency with
  | .critical => 0.5
  | .high => 0.3
  | .medium => 0.15
  | .low => 0.05
  | .none => 0

-- Specification-side depletion description (for claim C5): walk forward
-- over the scheduled gym-day offsets; the k-th such day leaves
-- `clean - rate*(k+1)` in stock; return the first offset where that is
-- `≤ 0`, and `14` when the stock survives the whole window.

/-- First scheduled-use offset at which the projected remaining stock is
`≤ 0`; `k` counts the scheduled days already consumed. -/
def specFirstDepletionAux (rate clean : ℚ) : List ℕ → ℕ → Option ℕ
  | [], _ => none
  | d :: rest, k =>
      if clean - rate * (k + 1 : ℕ) ≤ 0 then some d
      else specFirstDepletionAux rate clean rest (k + 1)

/-- Modelled from the spec: "walk forward day-by-day over the lookahead
window; on each scheduled-use day, subtract the consumption rate from
remaining stock; record the first day offset where remaining stock ≤ 0
as `days_until_depletion` (if none found within the window, treat as
14)". -/
def specDaysUntilDepletion (offsets : List ℕ) (rate clean : ℚ) : ℕ :=
  (specFirstDepletionAux rate clean offsets 0).getD 14

/-- The concrete laundry inventory of the spec's depletion example:
3 clean items, 1 item per session, gym on Mon/Wed/Fri. -/
def exampleLaundry : LaundryState :=
  { base :=
      { id := "laundry", name := "Gym Laundry", category := "hygiene"
        streak_count := 0, last_completion_timestamp := none
        completion_rate_7d := 0, preferred_time_windows := []
        resistance_score := 0.4, friction_score := 0, momentum_score := 0
        cooldown_until := 0, recent_nudge_outcomes := [], created_at := 0
        metadata := [] }
    metadata :=
      { total_gym_clothes := 7, clean_count := 3, dirty_count := 4
        last_wash_timestamp := none, gym_days := [1, 3, 5]
        avg_clothes_per_session := 1, depletion_rate := 0.43
        predicted_depletion_date := none } }

theorem depletionWalk_eq_spec (rate clean : ℚ) (offs : List ℕ) :
    ∀ (k : ℕ), 0 < clean - rate * k →
      (if 0 < (depletionWalk rate offs (clean - rate * k)).1 then 14
        else (depletionWalk rate offs (clean - rate * k)).2) =
      (specFirstDepletionAux rate clean offs k).getD 14 := by
  induction offs with
  | nil =>
      intro k hc
      simp only [depletionWalk, specFirstDepletionAux, Option.getD_none,
        if_pos hc]
  | cons d rest ih =>
      intro k hc
      have harith : clean - rate * (k : ℚ) - rate =
          clean - rate * ((k + 1 : ℕ) : ℚ) := by push_cast; ring
      simp only [depletionWalk, specFirstDepletionAux]
      rw [harith]
      by_cases h : clean - rate * ((k + 1 : ℕ) : ℚ) ≤ 0
      · simp only [if_pos h, Option.getD_some]
        exact if_neg (not_lt.mpr h)
      · simp only [if_neg h]
        exact ih (k + 1) (not_le.mp h)

/-- C5: `predictDepletion` walks forward day by day across the 14-day
window, subtracting `avg_clothes_per_session` on each scheduled gym day;
`days_until_depletion` is the first offset at which the remaining stock is
`≤ 0`, and `14` when the stock survives the window (stated for positive
initial stock; with zero stock and no scheduled gym day the source
returns its loop initialiser `0` instead).  In the spec's example —
3 clean items, 1 per session, gym on Mon/Wed/Fri, "now" a Sunday — the
depletion offset is 5 and the urgency is "low". -/
theorem predictDepletion_spec :
    (∀ (state : LaundryState) (currentDay : ℕ) (now : ℚ),
        0 < state.metadata.clean_count →
        (predictDepletion state currentDay now).days_until_depletion =
          specDaysUntilDepletion
            (getUpcomingGymDays state.metadata.gym_days currentDay 14)
            state.metadata.avg_clothes_per_session
            state.metadata.clean_count) ∧
    (predictDepletion exampleLaundry 0 0).days_until_depletion = 5 ∧
    (predictDepletion exampleLaundry 0 0).urgency = .low := by
  have hoffs : getUpcomingGymDays [1, 3, 5] 0 14 = [1, 3, 5, 8, 10, 12] := rfl
  refine ⟨fun state currentDay now hpos => ?_, ?_, ?_⟩
  case refine_2 =>
    simp only [predictDepletion, exampleLaundry, hoffs]
    norm_num [depletionWalk]
  case refine_3 =>
    simp only [predictDepletion, exampleLaundry, hoffs]
    norm_num [depletionWalk, categorizeUrgency]
  have h0 : state.metadata.clean_count =
      state.metadata.clean_count - state.metadata.avg_clothes_per_session *
        ((0 : ℕ) : ℚ) := by push_cast; ring
  have := depletionWalk_eq_spec state.metadata.avg_clothes_per_session
    state.metadata.clean_count
    (getUpcomingGymDays state.metadata.gym_days currentDay 14) 0
    (by rw [← h0]; exact hpos)
  rw [← h0] at this
  simpa [predictDepletion, specDaysUntilDepletion] using this

/-- Witness for `predictDepletion_spec` at the spec's example inventory. -/
theorem predictDepletion_spec_witness :
    (predictDepletion exampleLaundry 0 0).days_until_depletion =
      specDaysUntilDepletion (getUpcomingGymDays [1, 3, 5] 0 14) 1 3 :=
  predictDepletion_spec.1 exampleLaundry 0 0 (by norm_num [exampleLaundry])

/-- C10: the laundry inventory operations conserve total stock and never
go negative: `consumeGymClothes` keeps `clean + dirty` constant, floors
`clean_count` at 0, and moves exactly the consumed amount from clean to
dirty; `washClothes` moves the entire dirty count back to clean and zeroes
`dirty_count`. -/
theorem laundry_inventory_conservation :
    ∀ (state : LaundryState) (now : ℚ),
      (consumeGymClothes state).metadata.clean_count +
          (consumeGymClothes state).metadata.dirty_count =
        state.metadata.clean_count + state.metadata.dirty_count ∧
      0 ≤ (consumeGymClothes state).metadata.clean_count ∧
      (consumeGymClothes state).metadata.dirty_count =
        state.metadata.dirty_count +
          (state.metadata.clean_count -
            (consumeGymClothes state).metadata.clean_count) ∧
      (washClothes state now).metadata.clean_count +
          (washClothes state now).metadata.dirty_count =
        state.metadata.clean_count + state.metadata.dirty_count ∧
      (washClothes state now).metadata.clean_count =
        state.metadata.clean_count + state.metadata.dirty_count ∧
      (washClothes state now).metadata.dirty_count = 0 := by
  intro state now
  refine ⟨?_, le_max_left 0 _, ?_, ?_, rfl, rfl⟩ <;>
    (simp [consumeGymClothes, washClothes]; try ring)

-- ─── HybridRouter (src/core/agent/HybridRouter.ts) ───────────────────────────

/-- The three routing targets (`RoutingDecision` in `src/types/index.ts`). -/
inductive RoutingDecision where
  | local
  | cloud
  | mock
deriving DecidableEq, Repr

/-- `RoutingContext` from `src/types/index.ts`. -/
structure RoutingContext where
  is_connected : Bool
  battery_level : ℚ
  prompt_complexity : ℚ
  recent_local_latency_ms : ℚ
  recent_cloud_latency_ms : ℚ
  local_failures : ℕ
  cloud_failures : ℕ
deriving DecidableEq, Repr

/-- The module-level mutable state of `HybridRouter.ts`: rolling latency
windows and failure counters. -/
structure RouterState where
  recentLocalLatencies : List ℚ
  recentCloudLatencies : List ℚ
  localFailures : ℕ
  cloudFailures : ℕ
deriving DecidableEq, Repr

/-- `avgLatency` from `HybridRouter.ts`: mean of the window, 5000 ms when
empty. -/
def avgLatency (arr : List ℚ) : ℚ :=
  if arr = [] then 5000 else arr.sum / arr.length

/-- `routeDecision` from `HybridRouter.ts` (the module-level latency
windows and failure counters are passed as explicit state). -/
def routeDecision (st : RouterState) (ctx : RoutingContext) :
    RoutingDecision :=
  if ¬ctx.is_connected then .local
  else if ctx.battery_level < 0.15 then .local
  else if ctx.prompt_complexity < 0.4 ∧ st.localFailures = 0 then .local
  else
    let avgLocal := avgLatency st.recentLocalLatencies
    let avgCloud := avgLatency st.recentCloudLatencies
    if 0.7 < ctx.prompt_complexity then .cloud
    else if avgLocal < avgCloud * 0.7 ∧ st.localFailures = 0 then .local
    else .cloud

/-- C6: `routeDecision` returns `local` whenever the device is offline,
regardless of every other input, and also whenever the battery level is
below the 0.15 threshold. -/
theorem routeDecision_local_guards :
    ∀ (st : RouterState) (ctx : RoutingContext),
      (ctx.is_connected = false → routeDecision st ctx = .local) ∧
      (ctx.battery_level < 0.15 → routeDecision st ctx = .local) := by
  intro st ctx
  constructor
  · intro h
    simp [routeDecision, h]
  · intro h
    by_cases hc : ctx.is_connected
    · simp [routeDecision, hc, h]
    · simp [routeDecision, hc]

/-- Witness for `routeDecision_local_guards`: a disconnected context and a
connected low-battery context both route to `local`. -/
theorem routeDecision_local_guards_witness :
    routeDecision ⟨[], [], 0, 0⟩
        ⟨false, 1, 0.9, 0, 0, 0, 0⟩ = .local ∧
    routeDecision ⟨[], [], 0, 0⟩
        ⟨true, 0.1, 0.9, 0, 0, 0, 0⟩ = .local :=
  ⟨(routeDecision_local_guards _ _).1 rfl,
   (routeDecision_local_guards _ _).2 (by norm_num)⟩

-- ─── MomentumCalculator (src/core/habits/MomentumCalculator.ts) ──────────────

/-- Inputs of `calculateFriction`. -/
structure FrictionParams where
  isInEvent : Bool
  isWeekend : Bool
  hourOfDay : ℚ
  motionState : String
  continuousScreenMinutes : ℚ
  inPreferredWindow : Bool
deriving DecidableEq, Repr

/-- `calculateFriction` from `MomentumCalculator.ts`: additive context
terms, clamped to `[0,1]`. -/
def calculateFriction (p : FrictionParams) : ℚ :=
  let f : ℚ := 0
  let f := if p.isInEvent then f + 0.4 else f
  let f := if p.motionState = "driving" then f + 0.5 else f
  let f := if p.hourOfDay < 6 ∨ 23 < p.hourOfDay then f + 0.6
    else if p.hourOfDay < 7 ∨ 22 < p.hourOfDay then f + 0.3 else f
  let f := if 30 < p.continuousScreenMinutes then f + 0.15 else f
  let f := if p.inPreferredWindow then f - 0.25 else f
  let f := if p.isWeekend then f - 0.1 else f
  max 0 (min 1 f)

/-- The friction value written by `HabitStateEngine.recalculateAll`:
contextual base friction plus (for inventory habits) the depletion-urgency
boost, capped at 1 (`habit.friction_score = Math.min(1, frictionBase)`). -/
def recalcFrictionScore (p : FrictionParams) (boost : ℚ) : ℚ :=
  min 1 (calculateFriction p + boost)

/-- `nudge.outcome === 'dismissed' || nudge.outcome === 'ignored'`. -/
def isNegativeOutcome (o : Option String) : Bool :=
  o = some "dismissed" ∨ o = some "ignored"

/-- `nudge.outcome === 'completed'`. -/
def isPositiveOutcome (o : Option String) : Bool :=
  o = some "completed"

/-- JS `slice(-n)`: the last `n` elements. -/
def lastN {α : Type} (n : ℕ) (l : List α) : List α :=
  l.drop (l.length - n)

/-- The `recent.forEach((nudge, i) => ...)` accumulation of
`calculateResistance`, with `i` the running index: returns
`(negativeCount, positiveCount, totalWeight)`.  (`positiveCount` is
accumulated by the source but never read afterwards.) -/
def resistanceCounts (N : ℚ) : List NudgeRecord → ℕ → ℚ × ℚ × ℚ
  | [], _ => (0, 0, 0)
  | nudge :: rest, i =>
      let acc := resistanceCounts N rest (i + 1)
      let recencyWeight := ((i : ℚ) + 1) / N
      (acc.1 + (if isNegativeOutcome nudge.outcome then recencyWeight else 0),
       acc.2.1 + (if isPositiveOutcome nudge.outcome then recencyWeight else 0),
       acc.2.2 + recencyWeight)

/-- `calculateResistance` from `MomentumCalculator.ts`. -/
def calculateResistance (habit : HabitState) : ℚ :=
  let recent := lastN 10 habit.recent_nudge_outcomes
  if recent.length = 0 then 0.2
  else
    let counts := resistanceCounts (recent.length : ℚ) recent 0
    let negativeCount := counts.1
    let totalWeight := counts.2.2
    if totalWeight = 0 then 0.2
    else max 0 (min 1 (negativeCount / totalWeight))

/-- Modelled from the spec: "resistance = recencyWeightedRatio(last 10
nudge outcomes): each outcome contributes a weight `(i+1)/N` (later =
heavier); `dismissed`/`ignored` count negative, `completed` positive,
`snoozed` neutral; with no history, resistance defaults to 0.2" — the
ratio of the recency weight carried by negative outcomes to the total
recency weight `Σ (i+1)/N = (N+1)/2`. -/
def recencyWeightedRatio (outcomes : List (Option String)) : ℚ :=
  if outcomes = [] then 0.2
  else
    let N : ℚ := outcomes.length
    (∑ j ∈ Finset.range outcomes.length,
        if isNegativeOutcome (outcomes.getD j none) then ((j : ℚ) + 1) / N
        else 0) /
      ((N + 1) / 2)

theorem resistanceCounts_total (N : ℚ) (hN : N ≠ 0) :
    ∀ (l : List NudgeRecord) (i : ℕ),
      (resistanceCounts N l i).2.2 =
        ((l.length : ℚ) * i + l.length * (l.length + 1) / 2) / N := by
  intro l
  induction l with
  | nil => intro i; simp [resistanceCounts]
  | cons a l ih =>
      intro i
      simp only [resistanceCounts, ih (i + 1), List.length_cons]
      push_cast
      field_simp
      ring

theorem resistanceCounts_neg (N : ℚ) :
    ∀ (l : List NudgeRecord) (i : ℕ),
      (resistanceCounts N l i).1 =
        ∑ j ∈ Finset.range l.length,
          if isNegativeOutcome ((l.map NudgeRecord.outcome).getD j none)
          then ((i : ℚ) + j + 1) / N else 0 := by
  intro l
  induction l with
  | nil => intro i; simp [resistanceCounts]
  | cons a l ih =>
      intro i
      have hsum : (∑ j ∈ Finset.range l.length,
          if isNegativeOutcome ((l.map NudgeRecord.outcome).getD j none)
            then (((i + 1 : ℕ) : ℚ) + j + 1) / N else 0) =
          ∑ j ∈ Finset.range l.length,
          if isNegativeOutcome (((a :: l).map NudgeRecord.outcome).getD
              (j + 1) none) then ((i : ℚ) + ((j + 1 : ℕ) : ℚ) + 1) / N
          else 0 := by
        refine Finset.sum_congr rfl fun j _ => ?_
        simp only [List.map_cons, List.getD_cons_succ]
        push_cast
        ring_nf
      simp only [resistanceCounts, ih (i + 1), List.length_cons,
        Finset.sum_range_succ', hsum]
      simp [List.getD_cons_zero]

theorem resistanceCounts_nonneg_le (N : ℚ) (hN : 0 < N) :
    ∀ (l : List NudgeRecord) (i : ℕ),
      0 ≤ (resistanceCounts N l i).1 ∧
      (resistanceCounts N l i).1 ≤ (resistanceCounts N l i).2.2 := by
  intro l
  induction l with
  | nil => intro i; simp [resistanceCounts]
  | cons a l ih =>
      intro i
      obtain ⟨h0, hle⟩ := ih (i + 1)
      have hw : (0 : ℚ) ≤ ((i : ℚ) + 1) / N :=
        div_nonneg (by positivity) hN.le
      constructor
      · by_cases h : isNegativeOutcome a.outcome <;>
          simp [resistanceCounts, h] <;> positivity
      · by_cases h : isNegativeOutcome a.outcome <;>
          (simp [resistanceCounts, h]; try linarith)

/-- C3: `calculateResistance` equals the spec's recency-weighted ratio
over the last 10 nudge outcomes — outcome `i` of `N` weighs `(i+1)/N`,
`dismissed`/`ignored` count toward the negative numerator, `completed`
and `snoozed` only toward the (positive) denominator — and defaults to
the neutral 0.2 on an empty history. -/
theorem calculateResistance_spec :
    (∀ habit : HabitState,
        calculateResistance habit =
          recencyWeightedRatio
            ((lastN 10 habit.recent_nudge_outcomes).map
              NudgeRecord.outcome)) ∧
    (∀ habit : HabitState, habit.recent_nudge_outcomes = [] →
        calculateResistance habit = 0.2) := by
  constructor
  · intro habit
    simp only [calculateResistance]
    generalize lastN 10 habit.recent_nudge_outcomes = recent
    by_cases hempty : recent = []
    · simp [recencyWeightedRatio, hempty]
    · have hlen : recent.length ≠ 0 := by
        simpa [List.length_eq_zero] using hempty
      have hN : (0 : ℚ) < (recent.length : ℚ) :=
        Nat.cast_pos.mpr (Nat.pos_of_ne_zero hlen)
      have htot : (resistanceCounts (recent.length : ℚ) recent 0).2.2 =
          ((recent.length : ℚ) + 1) / 2 := by
        rw [resistanceCounts_total (recent.length : ℚ) (ne_of_gt hN)
          recent 0]
        field_simp
        ring
      have htotpos : 0 < (resistanceCounts (recent.length : ℚ)
          recent 0).2.2 := by
        rw [htot]; positivity
      have hneg : (resistanceCounts (recent.length : ℚ) recent 0).1 =
          ∑ j ∈ Finset.range recent.length,
            if isNegativeOutcome ((recent.map NudgeRecord.outcome).getD j
              none) then ((j : ℚ) + 1) / (recent.length : ℚ) else 0 := by
        simpa using resistanceCounts_neg (recent.length : ℚ) recent 0
      obtain ⟨hge, hle⟩ :=
        resistanceCounts_nonneg_le (recent.length : ℚ) hN recent 0
      have hratio0 : 0 ≤ (resistanceCounts (recent.length : ℚ) recent 0).1 /
          (resistanceCounts (recent.length : ℚ) recent 0).2.2 :=
        div_nonneg hge htotpos.le
      have hratio1 : (resistanceCounts (recent.length : ℚ) recent 0).1 /
          (resistanceCounts (recent.length : ℚ) recent 0).2.2 ≤ 1 :=
        (div_le_one htotpos).mpr hle
      rw [if_neg hlen, if_neg (ne_of_gt htotpos),
        max_eq_right (le_min (by norm_num) hratio0),
        min_eq_right hratio1, hneg, htot, recencyWeightedRatio,
        if_neg (by simpa using hempty)]
      simp
  · intro habit h
    simp [calculateResistance, lastN, h]

/-- Witness for the hypothesis-bearing conjunct of
`calculateResistance_spec`: a habit with an empty outcome history scores
the neutral default 0.2. -/
theorem calculateResistance_spec_witness :
    calculateResistance exampleLaundry.base = 0.2 :=
  calculateResistance_spec.2 exampleLaundry.base rfl

/-- `streakFactor`: `Math.min(streak / STREAK_SATURATION, 1.0)` with
`STREAK_SATURATION = 14`. -/
def streakFactor (streak : ℚ) : ℚ :=
  min (streak / 14) 1

/-- `recencyFactor` from `MomentumCalculator.ts`.  The guard
`if (!lastCompletionTimestamp) return 0` is JS truthiness: it fires for
`null` and for a stored timestamp of exactly `0`.
`RECENCY_HALF_LIFE_HOURS = 36`. -/
noncomputable def recencyFactor (lastCompletionTimestamp : Option ℚ)
    (now : ℚ) : ℝ :=
  match lastCompletionTimestamp with
  | none => 0
  | some t =>
      if t = 0 then 0
      else
        let hoursSince : ℚ := (now - t) / (1000 * 60 * 60)
        if hoursSince < 0 then 1
        else (0.5 : ℝ) ^ (((hoursSince : ℝ)) / 36)

/-- `calculateMomentum` from `MomentumCalculator.ts`:
`Math.round(Math.max(0, Math.min(100, raw * 100)))`. -/
noncomputable def calculateMomentum (habit : HabitState) (now : ℚ) : ℤ :=
  let streak : ℝ := (streakFactor habit.streak_count : ℚ)
  let recency : ℝ := recencyFactor habit.last_completion_timestamp now
  let success : ℝ := (habit.completion_rate_7d : ℚ)
  let friction : ℝ := (habit.friction_score : ℚ)
  let resistance : ℝ := (habit.resistance_score : ℚ)
  let raw := 0.25 * streak + 0.30 * recency + 0.25 * success -
    0.10 * friction - 0.10 * resistance
  round (max (0 : ℝ) (min 100 (raw * 100)))

/-- Modelled from the spec: `recencyFactor = 0.5^(hoursSince/36)`,
`0` if never completed, `1` if the timestamp lies in the future. -/
noncomputable def specRecencyFactor (lastCompletionTimestamp : Option ℚ)
    (now : ℚ) : ℝ :=
  match lastCompletionTimestamp with
  | none => 0
  | some t =>
      if now < t then 1
      else (0.5 : ℝ) ^ ((((now : ℝ) - (t : ℝ)) / (1000 * 60 * 60)) / 36)

/-- Modelled from the spec: `momentum = round(clamp(100·raw, 0, 100))`
with `raw = 0.25·streakFactor + 0.30·recencyFactor +
0.25·completion_rate_7d − 0.10·friction − 0.10·resistance` and
`streakFactor = min(streak/14, 1)`. -/
noncomputable def specMomentum (habit : HabitState) (now : ℚ) : ℤ :=
  let streakF : ℝ := ((min (habit.streak_count / 14) 1 : ℚ) : ℝ)
  let raw := 0.25 * streakF +
    0.30 * specRecencyFactor habit.last_completion_timestamp now +
    0.25 * ((habit.completion_rate_7d : ℚ) : ℝ) -
    0.10 * ((habit.friction_score : ℚ) : ℝ) -
    0.10 * ((habit.resistance_score : ℚ) : ℝ)
  round (max (0 : ℝ) (min 100 (100 * raw)))

theorem recencyFactor_eq_spec (ts : Option ℚ) (now : ℚ)
    (h : ts ≠ some 0) :
    recencyFactor ts now = specRecencyFactor ts now := by
  match ts with
  | none => rfl
  | some t =>
      have ht : t ≠ 0 := fun h0 => h (by rw [h0])
      have hcond : ((now - t) / (1000 * 60 * 60) < 0) ↔ now < t := by
        rw [div_neg_iff]
        constructor
        · rintro (⟨_, hb⟩ | ⟨ha, _⟩)
          · norm_num at hb
          · linarith
        · intro hlt
          exact Or.inr ⟨by linarith, by norm_num⟩
      simp only [recencyFactor, specRecencyFactor, if_neg ht]
      by_cases hf : now < t
      · rw [if_pos (hcond.mpr hf), if_pos hf]
      · rw [if_neg (fun hx => hf (hcond.mp hx)), if_neg hf]
        congr 1
        push_cast
        ring

theorem calculateMomentum_eq_spec (habit : HabitState) (now : ℚ)
    (h : habit.last_completion_timestamp ≠ some 0) :
    calculateMomentum habit now = specMomentum habit now := by
  simp only [calculateMomentum, specMomentum, streakFactor,
    recencyFactor_eq_spec habit.last_completion_timestamp now h]
  congr 1
  congr 1
  ring_nf

/-- The spec's momentum example: streak 7, last completion 18 h ago,
7-day completion rate 0.6, friction 0.1, resistance 0.2. -/
def exampleMomentumHabit : HabitState :=
  { id := "gym", name := "Gym Workout", category := "fitness"
    streak_count := 7, last_completion_timestamp := some 1000000000
    completion_rate_7d := 0.6, preferred_time_windows := []
    resistance_score := 0.2, friction_score := 0.1, momentum_score := 0
    cooldown_until := 0, recent_nudge_outcomes := [], created_at := 0
    metadata := [] }

theorem round_clamp_46 (x : ℝ) (h1 : (45.5 : ℝ) ≤ x) (h2 : x < 46.5) :
    round (max (0 : ℝ) (min 100 x)) = 46 := by
  have hx : max (0 : ℝ) (min 100 x) = x := by
    rw [min_eq_right (by linarith), max_eq_right (by linarith)]
  rw [hx, round_eq, Int.floor_eq_iff]
  constructor
  · push_cast; linarith
  · push_cast; linarith

theorem calculateMomentum_example :
    calculateMomentum exampleMomentumHabit (1000000000 + 18 * 3600000) =
      46 := by
  have hs0 : (0 : ℝ) ≤ Real.sqrt (1 / 2) := Real.sqrt_nonneg _
  have hs2 : Real.sqrt (1 / 2) ^ 2 = 1 / 2 := Real.sq_sqrt (by norm_num)
  have hlo : (0.7 : ℝ) ≤ Real.sqrt (1 / 2) := by nlinarith [hs0, hs2]
  have hhi : Real.sqrt (1 / 2) ≤ 0.733 := by nlinarith [hs0, hs2]
  have hrpow : (0.5 : ℝ) ^ ((1 : ℝ) / 2) = Real.sqrt (1 / 2) := by
    rw [Real.sqrt_eq_rpow]
    norm_num
  have ht0 : ¬((1000000000 : ℚ) = 0) := by norm_num
  have hts : ¬((1000000000 + 18 * 3600000 - 1000000000 : ℚ) /
      (1000 * 60 * 60) < 0) := by norm_num
  have harg : ((1000000000 + 18 * 3600000 - 1000000000 : ℚ) /
      (1000 * 60 * 60)) = 18 := by norm_num
  have hmin : (min ((7 : ℚ) / 14) 1) = 1 / 2 := by norm_num [min_def]
  simp only [calculateMomentum, recencyFactor, streakFactor,
    exampleMomentumHabit]
  rw [if_neg ht0, if_neg hts, harg, hmin]
  have hexp : ((18 : ℚ) : ℝ) / 36 = (1 : ℝ) / 2 := by norm_num
  rw [hexp, hrpow]
  apply round_clamp_46
  · push_cast
    linarith [hlo]
  · push_cast
    linarith [hhi]

/-- C4: `calculateMomentum` is exactly the spec's
`round(clamp(100·raw, 0, 100))` with
`raw = 0.25·streakFactor + 0.30·recencyFactor + 0.25·rate − 0.10·friction
− 0.10·resistance`, `streakFactor = min(streak/14, 1)`, and
`recencyFactor = 0.5^(h/36)` (0 when never completed, 1 when the
timestamp is in the future) — for every habit whose stored timestamp is
not the JS-falsy value `0` (which the source's truthiness guard treats as
never-completed) — and the spec's example evaluates to exactly 46. -/
theorem calculateMomentum_spec :
    (∀ (habit : HabitState) (now : ℚ),
        habit.last_completion_timestamp ≠ some 0 →
        calculateMomentum habit now = specMomentum habit now) ∧
    calculateMomentum exampleMomentumHabit (1000000000 + 18 * 3600000) =
      46 :=
  ⟨calculateMomentum_eq_spec, calculateMomentum_example⟩

/-- Witness for `calculateMomentum_spec` at the example habit. -/
theorem calculateMomentum_spec_witness :
    calculateMomentum exampleMomentumHabit (1000000000 + 18 * 3600000) =
      specMomentum exampleMomentumHabit (1000000000 + 18 * 3600000) :=
  calculateMomentum_spec.1 exampleMomentumHabit _
    (by simp [exampleMomentumHabit])

theorem round_clamp100_bounds (x : ℝ) :
    0 ≤ round (max (0 : ℝ) (min 100 x)) ∧
    round (max (0 : ℝ) (min 100 x)) ≤ 100 := by
  have h0 : (0 : ℝ) ≤ max 0 (min 100 x) := le_max_left _ _
  have h1 : max (0 : ℝ) (min 100 x) ≤ 100 :=
    max_le (by norm_num) (min_le_left _ _)
  have hfloor : (⌊(100.5 : ℝ)⌋ : ℤ) = 100 := by
    rw [Int.floor_eq_iff]
    norm_num
  constructor
  · rw [round_eq]
    exact Int.floor_nonneg.mpr (by linarith)
  · rw [round_eq]
    calc ⌊max (0 : ℝ) (min 100 x) + 1 / 2⌋ ≤ ⌊(100.5 : ℝ)⌋ :=
          Int.floor_le_floor (by linarith)
      _ = 100 := hfloor

theorem laundryFrictionBoost_nonneg (forecast : DepletionForecast) :
    0 ≤ laundryFrictionBoost forecast := by
  cases hu : forecast.urgency <;> simp [laundryFrictionBoost, hu] <;>
    norm_num

theorem calculateFriction_bounds (p : FrictionParams) :
    0 ≤ calculateFriction p ∧ calculateFriction p ≤ 1 :=
  ⟨le_max_left _ _, max_le (by norm_num) (min_le_left _ _)⟩

theorem calculateResistance_bounds (habit : HabitState) :
    0 ≤ calculateResistance habit ∧ calculateResistance habit ≤ 1 := by
  simp only [calculateResistance]
  split
  · norm_num
  · split
    · norm_num
    · exact ⟨le_max_left _ _, max_le (by norm_num) (min_le_left _ _)⟩

/-- C8: for every input, `calculateMomentum` lands in `[0,100]`,
`calculateFriction` in `[0,1]`, the friction score written by
`recalculateAll` (base friction plus any depletion-urgency boost, capped)
in `[0,1]`, and `calculateResistance` in `[0,1]`.  Stated without any
validity hypotheses — the clamps enforce the ranges for *all* inputs. -/
theorem scores_bounded :
    ∀ (habit : HabitState) (now : ℚ) (p : FrictionParams)
      (forecast : DepletionForecast),
      (0 ≤ calculateMomentum habit now ∧
        calculateMomentum habit now ≤ 100) ∧
      (0 ≤ calculateFriction p ∧ calculateFriction p ≤ 1) ∧
      (0 ≤ recalcFrictionScore p (laundryFrictionBoost forecast) ∧
        recalcFrictionScore p (laundryFrictionBoost forecast) ≤ 1) ∧
      (0 ≤ calculateResistance habit ∧ calculateResistance habit ≤ 1) := by
  intro habit now p forecast
  refine ⟨round_clamp100_bounds _, calculateFriction_bounds p,
    ⟨?_, min_le_left _ _⟩, calculateResistance_bounds habit⟩
  have hfr := (calculateFriction_bounds p).1
  have hb := laundryFrictionBoost_nonneg forecast
  exact le_min (by norm_num) (by linarith)

-- ─── HabitStateEngine (src/core/habits/HabitStateEngine.ts) ──────────────────

/-- The persisted habit map (`storage.getHabits()`), keyed by habit id. -/
abbrev Store : Type := List (String × HabitState)

/-- The state update performed by `HabitStateEngine.recordCompletion` on a
found habit: streak bump/reset by the 1.5-day gap rule, exponential
smoothing of the 7-day rate (`decayFactor = 0.85`), new completion
timestamp, and an immediate momentum recomputation.  The gap is
`Infinity` when `lastCompletion` is JS-falsy (`null` or `0`). -/
noncomputable def recordCompletionHabit (habit : HabitState) (now : ℚ) :
    HabitState :=
  let daysSinceLast : Option ℚ :=
    match habit.last_completion_timestamp with
    | some t => if t = 0 then none
        else some ((now - t) / (1000 * 60 * 60 * 24))
    | none => none
  let streak : ℚ :=
    match daysSinceLast with
    | some d => if d ≤ 1.5 then habit.streak_count + 1 else 1
    | none => 1
  let habit1 := { habit with
    streak_count := streak
    last_completion_timestamp := some now
    completion_rate_7d :=
      min 1 (habit.completion_rate_7d * 0.85 + (1 - 0.85)) }
  { habit1 with momentum_score := calculateMomentum habit1 now }

/-- `HabitStateEngine.recordCompletion`: look the habit up, apply the
completion update and save it; a missing id is a no-op returning `null`. -/
noncomputable def recordCompletion (store : Store) (habitId : String)
    (now : ℚ) : Option HabitState × Store :=
  match alistLookup store habitId with
  | none => (none, store)
  | some habit =>
      let h' := recordCompletionHabit habit now
      (some h', alistSet store habitId h')

theorem calculateMomentum_momentum_irrel (h : HabitState) (m : ℤ)
    (now : ℚ) :
    calculateMomentum { h with momentum_score := m } now =
      calculateMomentum h now := rfl

/-- C9: for an existing habit (with a non-JS-falsy stored timestamp and a
valid rate), `recordCompletion` bumps the streak when the gap since the
last completion is at most 36 hours and resets it to 1 otherwise (also 1
when never completed), smooths the rate to `rate·0.85 + 0.15`, stamps the
new completion time, and recomputes the momentum immediately; a missing
habit id is a no-op returning `none` and leaving the store untouched. -/
theorem recordCompletion_spec :
    ∀ (store : Store) (habitId : String) (now : ℚ),
      (∀ habit : HabitState, alistLookup store habitId = some habit →
        habit.last_completion_timestamp ≠ some 0 →
        habit.completion_rate_7d ≤ 1 →
        ∃ h' : HabitState,
          (recordCompletion store habitId now).1 = some h' ∧
          h'.streak_count =
            (match habit.last_completion_timestamp with
              | none => (1 : ℚ)
              | some t =>
                if now - t ≤ 36 * 3600000 then habit.streak_count + 1
                else 1) ∧
          h'.completion_rate_7d =
            habit.completion_rate_7d * 0.85 + 0.15 ∧
          h'.last_completion_timestamp = some now ∧
          h'.momentum_score = calculateMomentum h' now) ∧
      (alistLookup store habitId = none →
        recordCompletion store habitId now = (none, store)) := by
  intro store habitId now
  constructor
  · intro habit hfind hts hrate
    refine ⟨recordCompletionHabit habit now, ?_, ?_, ?_, rfl, ?_⟩
    · simp [recordCompletion, hfind]
    · simp only [recordCompletionHabit]
      match h : habit.last_completion_timestamp with
      | none => rfl
      | some t =>
          have ht : t ≠ 0 := fun h0 => hts (by rw [h, h0])
          have hgap : ((now - t) / (1000 * 60 * 60 * 24) ≤ 1.5) ↔
              now - t ≤ 36 * 3600000 := by
            rw [div_le_iff₀ (by norm_num : (0:ℚ) < 1000 * 60 * 60 * 24)]
            norm_num
          simp only [if_neg ht]
          by_cases hle : now - t ≤ 36 * 3600000
          · rw [if_pos (hgap.mpr hle), if_pos hle]
          · rw [if_neg (fun hx => hle (hgap.mp hx)), if_neg hle]
    · simp only [recordCompletionHabit]
      rw [min_eq_right (by linarith)]
      norm_num
    · exact (calculateMomentum_momentum_irrel _ _ _).symm
  · intro hnone
    simp [recordCompletion, hnone]

/-- The one-habit store used as the concrete witness input. -/
def exampleStore : Store := [("gym", exampleMomentumHabit)]

/-- Witness for `recordCompletion_spec`: the example habit completed one
hour after its last completion. -/
theorem recordCompletion_spec_witness :
    ∃ h' : HabitState,
      (recordCompletion exampleStore "gym" (1000000000 + 3600000)).1 =
        some h' ∧
      h'.streak_count =
        (match exampleMomentumHabit.last_completion_timestamp with
          | none => (1 : ℚ)
          | some t =>
            if (1000000000 + 3600000 : ℚ) - t ≤ 36 * 3600000 then
              exampleMomentumHabit.streak_count + 1
            else 1) ∧
      h'.completion_rate_7d =
        exampleMomentumHabit.completion_rate_7d * 0.85 + 0.15 ∧
      h'.last_completion_timestamp = some (1000000000 + 3600000) ∧
      h'.momentum_score = calculateMomentum h' (1000000000 + 3600000) :=
  (recordCompletion_spec exampleStore "gym" _).1 exampleMomentumHabit
    (by simp [exampleStore, alistLookup])
    (by simp [exampleMomentumHabit])
    (by norm_num [exampleMomentumHabit])

-- ─── CactusRuntime fallback chain (src/core/cactus/CactusRuntime.ts, the
-- multi-path variant: direct Gemini REST → Cactus hybrid relay → local
-- on-device → deterministic delay_nudge fallback) ────────────────────────────

/-- A structured tool call (`ToolCall` in `src/types/index.ts`). -/
structure ToolCall where
  name : String
  arguments : List (String × JValue)
deriving DecidableEq, Repr

/-- `CactusCompletionResponse` from `src/types/index.ts`. -/
structure CactusCompletionResponse where
  success : Bool
  response : String
  function_calls : List ToolCall
  confidence : ℚ
  tokens_per_second : ℚ
  latency_ms : ℚ
deriving DecidableEq, Repr

/-- The mutable fields of `CactusRuntime` that `complete` reads
(`lm !== null` is modelled as `hasLm`). -/
structure RuntimeState where
  isLoaded : Bool
  isNative : Bool
  nativeReady : Bool
  hybridAvailable : Bool
  hasLm : Bool
  geminiApiKey : Option String
  cactusToken : Option String
deriving DecidableEq, Repr

/-- The outcomes the asynchronous backends would produce if attempted:
each of `geminiRestInference`, `cactusHybridInference` and
`cactusLocalInference` either resolves to a response or rejects
(failure or timeout, both surfaced as a thrown error), and the lazy
on-device model load either succeeds or fails. -/
structure BackendAttempts where
  gemini : Except String CactusCompletionResponse
  hybrid : Except String CactusCompletionResponse
  localInference : Except String CactusCompletionResponse
  nativeLoadOk : Bool

/-- The runtime's startup method: marks the runtime loaded (native models
are only loaded lazily later); never fails. -/
def initRuntime (nativeAvailable : Bool) (st : RuntimeState) :
    RuntimeState :=
  if st.isLoaded then st
  else { st with isLoaded := true, isNative := nativeAvailable }

/-- `ensureNativeModelLoaded`: no-op when ready, refuses when not native,
otherwise attempts the download+init and records the outcome. -/
def ensureNativeModelLoaded (st : RuntimeState) (loadOk : Bool) :
    RuntimeState :=
  if st.nativeReady && st.hasLm then st
  else if !st.isNative then st
  else if loadOk then { st with hasLm := true, nativeReady := true }
  else { st with hasLm := false, nativeReady := false }

/-- One guarded backend attempt inside `complete`: when the guard holds
and the backend resolves, its response is returned with the measured
latency; a rejection (caught by the surrounding `try`) falls through. -/
def attemptPath (cond : Bool)
    (att : Except String CactusCompletionResponse) (elapsed : ℚ) :
    Option CactusCompletionResponse :=
  if cond then
    match att with
    | .ok r => some { r with latency_ms := elapsed }
    | .error _ => none
  else none

/-- The synthetic defer action of the guaranteed fallback:
`{ name: 'delay_nudge', arguments: { habit_id: 'unknown', reason } }`. -/
def delayNudgeCall (reason : String) : ToolCall :=
  { name := "delay_nudge",
    arguments := [("habit_id", .str "unknown"), ("reason", .str reason)] }

/-- `CactusRuntime.complete` (the fallback-chain variant): throws when not
initialised, then tries Gemini REST (online, key configured), the Cactus
hybrid relay (online, model ready, hybrid token), the local model
(lazy-loading it when offline), and finally returns the deterministic
`delay_nudge` fallback.  Wall-clock latency is abstracted as `elapsed`. -/
def complete (st : RuntimeState) (isOnline : Bool) (att : BackendAttempts)
    (elapsed : ℚ) : Except String CactusCompletionResponse :=
  if !st.isLoaded then .error "Model not loaded. Call initialize() first."
  else
    match attemptPath (isOnline && st.geminiApiKey.isSome) att.gemini
        elapsed with
    | some r => .ok r
    | none =>
      match attemptPath
          (isOnline && st.nativeReady && st.hasLm && st.hybridAvailable)
          att.hybrid elapsed with
      | some r => .ok r
      | none =>
        let st' := if !isOnline && st.isNative
          then ensureNativeModelLoaded st att.nativeLoadOk else st
        match attemptPath (st'.nativeReady && st'.hasLm)
            att.localInference elapsed with
        | some r => .ok r
        | none =>
          let hasAnyKey :=
            st.geminiApiKey.isSome || st.cactusToken.isSome
          let reason :=
            if !hasAnyKey then
              "no API key configured — add GEMINI_API_KEY to .env"
            else if st'.nativeReady then
              "both cloud and local failed — retrying next cycle"
            else "local model still loading — retrying next cycle"
          .ok { success := true, response := "",
                function_calls := [delayNudgeCall reason],
                confidence := 0.1, tokens_per_second := 0,
                latency_ms := elapsed }

/-- A rejected backend attempt. -/
def isFail : Except String CactusCompletionResponse → Bool
  | .error _ => true
  | .ok _ => false

theorem attemptPath_of_fail (cond : Bool)
    (att : Except String CactusCompletionResponse) (elapsed : ℚ)
    (h : isFail att = true) : attemptPath cond att elapsed = none := by
  cases att with
  | error e => simp [attemptPath]
  | ok r => simp [isFail] at h

/-- C1: once `initialize()` has run (`isLoaded = true`), if every backend
attempt — direct REST, hybrid relay, local on-device — rejects (fails or
times out), `complete` still returns normally (never throws) with
`success = true`, exactly one synthetic `delay_nudge` call whose
arguments carry a non-empty human-readable reason, and confidence 0.1. -/
theorem complete_guaranteed_fallback :
    ∀ (st : RuntimeState) (isOnline : Bool) (att : BackendAttempts)
      (elapsed : ℚ),
      st.isLoaded = true →
      isFail att.gemini = true →
      isFail att.hybrid = true →
      isFail att.localInference = true →
      ∃ (r : CactusCompletionResponse) (reason : String),
        complete st isOnline att elapsed = .ok r ∧
        r.success = true ∧
        r.function_calls = [delayNudgeCall reason] ∧
        r.confidence = 0.1 ∧
        reason ≠ "" := by
  intro st isOnline att elapsed hL h1 h2 h3
  simp only [complete, hL, attemptPath_of_fail _ _ _ h1,
    attemptPath_of_fail _ _ _ h2, attemptPath_of_fail _ _ _ h3,
    Bool.not_true, Bool.false_eq_true, if_false]
  refine ⟨_, _, rfl, rfl, rfl, rfl, ?_⟩
  split_ifs <;> decide

/-- Witness for `complete_guaranteed_fallback`: a loaded cloud-only
runtime whose every attempt rejects. -/
theorem complete_guaranteed_fallback_witness :
    ∃ (r : CactusCompletionResponse) (reason : String),
      complete
          { isLoaded := true, isNative := false, nativeReady := false,
            hybridAvailable := false, hasLm := false,
            geminiApiKey := some "k", cactusToken := none }
          true
          { gemini := .error "Gemini API 500", hybrid := .error "timeout",
            localInference := .error "load failed", nativeLoadOk := false }
          0 = .ok r ∧
      r.success = true ∧
      r.function_calls = [delayNudgeCall reason] ∧
      r.confidence = 0.1 ∧
      reason ≠ "" :=
  complete_guaranteed_fallback _ _ _ _ rfl rfl rfl rfl

-- ─── ToolExecutor and registered handlers (src/core/tools) ───────────────────

/-- Observable events of a dispatch: the executor calling a registered
handler, and the handlers' side effects (notification dispatch, habit
saves). -/
inductive Effect where
  | handlerInvoked (name : String)
  | nudgeDispatched (habitId tone message : String)
  | habitSaved (id : String)
deriving DecidableEq, Repr

/-- `ToolResult` from `src/types/index.ts`. -/
structure ToolResult where
  success : Bool
  tool_name : String
  data : List (String × JValue)
  error : Option String
deriving DecidableEq, Repr

/-- JS property access `args.key`. -/
def getArg (args : List (String × JValue)) (k : String) : Option JValue :=
  alistLookup args k

/-- The string content a handler sees after an `as string` cast, as it is
interpolated into records and messages. -/
def jvAsString : JValue → String
  | .str s => s
  | .num q => toString q
  | .bool b => if b then "true" else "false"
  | .null => "null"

/-- `Number(x)` on an argument value; `none` models `NaN`
(`Number(undefined)` is `NaN`, `Number(null)` is `0`). -/
def jsToNumber (v : Option JValue) : Option ℚ :=
  match v with
  | none => none
  | some (.num q) => some q
  | some (.bool b) => some (if b then 1 else 0)
  | some .null => some 0
  | some (.str s) => jsParseNumber s
where
  /-- `Number(s)` on plain decimal literals: optional sign, digits,
  optional fraction; the empty string parses as 0 as in JS.  (Exponent,
  hex and whitespace forms are not modelled; no claim depends on them.) -/
  jsParseNumber (s : String) : Option ℚ :=
    let chars := s.data
    if chars = [] then some 0
    else
      let signed : ℚ × List Char :=
        match chars with
        | '-' :: r => (-1, r)
        | '+' :: r => (1, r)
        | r => (1, r)
      let intPart := signed.2.takeWhile Char.isDigit
      let rest := signed.2.dropWhile Char.isDigit
      match rest with
      | [] => if intPart = [] then none
          else some (signed.1 * digitsVal intPart)
      | '.' :: frac =>
          if frac.all Char.isDigit && (intPart ≠ [] || frac ≠ []) then
            some (signed.1 *
              (digitsVal intPart + digitsVal frac / (10 : ℚ) ^ frac.length))
          else none
      | _ => none
  digitsVal (l : List Char) : ℚ :=
    l.foldl (fun acc c => acc * 10 + ((c.toNat : ℚ) - 48)) 0

/-- `HabitStateEngine.recordNudgeOutcome`: append to the bounded buffer
(trimmed to the last 20), recompute resistance, save; missing id is a
silent no-op. -/
def recordNudgeOutcome (store : Store) (habitId : String)
    (record : NudgeRecord) : Store × List Effect :=
  match alistLookup store habitId with
  | none => (store, [])
  | some habit =>
      let buf := habit.recent_nudge_outcomes ++ [record]
      let habit1 := { habit with recent_nudge_outcomes := buf }
      let habit2 :=
        if 20 < habit1.recent_nudge_outcomes.length then
          { habit1 with recent_nudge_outcomes := lastN 20 habit1.recent_nudge_outcomes }
        else habit1
      let habit3 := { habit2 with resistance_score := calculateResistance habit2 }
      (alistSet store habitId habit3, [.habitSaved habitId])

/-- `HabitStateEngine.setCooldown`: stamp `cooldown_until`, save; missing
id is a silent no-op. -/
def setCooldown (store : Store) (habitId : String) (minutes now : ℚ) :
    Store × List Effect :=
  match alistLookup store habitId with
  | none => (store, [])
  | some habit =>
      (alistSet store habitId
        { habit with cooldown_until := now + minutes * 60 * 1000 },
       [.habitSaved habitId])

/-- `handleSendNudge` (src/core/tools/handlers/SendNudge.ts): validate
the three required arguments by truthiness, then dispatch the
notification and record a pending nudge outcome. -/
def handleSendNudge (args : List (String × JValue)) (store : Store)
    (now : ℚ) : ToolResult × Store × List Effect :=
  let habitId := getArg args "habit_id"
  let tone := getArg args "tone"
  let message := getArg args "message"
  if !(jsTruthy habitId) || !(jsTruthy tone) || !(jsTruthy message) then
    ({ success := false, tool_name := "send_nudge", data := [],
       error := some "Missing required parameters: habit_id, tone, message" },
     store, [])
  else
    let habitIdS := jvAsString (habitId.getD .null)
    let toneS := jvAsString (tone.getD .null)
    let messageS := jvAsString (message.getD .null)
    let outcome := recordNudgeOutcome store habitIdS
      { timestamp := now, tone := toneS, message := messageS,
        outcome := none }
    ({ success := true, tool_name := "send_nudge",
       data := [("habit_id", habitId.getD .null),
         ("tone", tone.getD .null), ("message", message.getD .null),
         ("sent_at", .num now)],
       error := none },
     outcome.1, .nudgeDispatched habitIdS toneS messageS :: outcome.2)

/-- `handleDelayNudge` (src/core/tools/handlers/DelayNudge.ts): validate
`habit_id` and `reason`, then log the explicit no-nudge decision (no
store mutation). -/
def handleDelayNudge (args : List (String × JValue)) (store : Store)
    (now : ℚ) : ToolResult × Store × List Effect :=
  let habitId := getArg args "habit_id"
  let reason := getArg args "reason"
  if !(jsTruthy habitId) || !(jsTruthy reason) then
    ({ success := false, tool_name := "delay_nudge", data := [],
       error := some "Missing required parameters: habit_id, reason" },
     store, [])
  else
    ({ success := true, tool_name := "delay_nudge",
       data := [("habit_id", habitId.getD .null),
         ("reason", reason.getD .null), ("decided_at", .num now),
         ("action", .str "no_nudge")],
       error := none },
     store, [])

/-- `handleIncreaseCooldown` (src/core/tools/handlers/IncreaseCooldown.ts):
validate `habit_id` truthy and `minutes` a positive number, cap at 120
minutes, then set the cooldown. -/
def handleIncreaseCooldown (args : List (String × JValue)) (store : Store)
    (now : ℚ) : ToolResult × Store × List Effect :=
  let habitId := getArg args "habit_id"
  let minutes := jsToNumber (getArg args "minutes")
  if !(jsTruthy habitId) ||
      (match minutes with
        | none => true
        | some m => decide (m ≤ 0)) then
    ({ success := false, tool_name := "increase_cooldown", data := [],
       error := some
         "Missing or invalid parameters: habit_id (string), minutes (positive number)" },
     store, [])
  else
    let m := minutes.getD 0
    let capped := min m 120
    let afterSet := setCooldown store (jvAsString (habitId.getD .null))
      capped now
    ({ success := true, tool_name := "increase_cooldown",
       data := [("habit_id", habitId.getD .null),
         ("minutes", .num capped),
         ("cooldown_until", .num (now + capped * 60 * 1000))],
       error := none },
     afterSet.1, afterSet.2)

/-- The argument-coercion rule of `handleUpdateHabitState`: string
`'true'`/`'false'` become booleans, numeric strings (non-empty after
trim) become numbers, everything else is left as-is. -/
def coerceValue (raw : JValue) : JValue :=
  match raw with
  | .str s =>
      if s = "true" then .bool true
      else if s = "false" then .bool false
      else
        match jsToNumber.jsParseNumber s with
        | some q => if s.trim ≠ "" then .num q else .str s
        | none => .str s
  | v => v

/-- The allow-list of `handleUpdateHabitState`. -/
def ALLOWED_FIELDS : List String :=
  ["resistance_score", "friction_score", "streak_count",
   "completion_rate_7d", "metadata.clean_count", "metadata.dirty_count",
   "metadata.avg_clothes_per_session"]

/-- `storage.updateHabitField`, restricted to the dotted field paths
reachable through the executor's allow-list.  The source assigns through
dynamic object access; the typed embedding maps each allowed path onto
its typed field (numeric top-level fields take the numeric value of the
coerced argument; metadata paths store the raw coerced value in the open
metadata map). -/
def updateHabitField (store : Store) (habitId field : String)
    (value : JValue) : Option HabitState × Store × List Effect :=
  match alistLookup store habitId with
  | none => (none, store, [])
  | some habit =>
      let qval : ℚ := match value with
        | .num q => q
        | .bool b => if b then 1 else 0
        | _ => 0
      let habit' :=
        if field = "resistance_score" then
          { habit with resistance_score := qval }
        else if field = "friction_score" then
          { habit with friction_score := qval }
        else if field = "streak_count" then
          { habit with streak_count := qval }
        else if field = "completion_rate_7d" then
          { habit with completion_rate_7d := qval }
        else if field = "metadata.clean_count" then
          { habit with metadata := alistSet habit.metadata "clean_count" value }
        else if field = "metadata.dirty_count" then
          { habit with metadata := alistSet habit.metadata "dirty_count" value }
        else if field = "metadata.avg_clothes_per_session" then
          { habit with metadata := alistSet habit.metadata "avg_clothes_per_session" value }
        else habit
      (some habit', alistSet store habitId habit', [.habitSaved habitId])

/-- `handleUpdateHabitState`
(src/core/tools/handlers/UpdateHabitState.ts): validate presence
(`value === undefined` is the only check on the raw value), coerce,
check the allow-list, then update through storage. -/
def handleUpdateHabitState (args : List (String × JValue)) (store : Store)
    (now : ℚ) : ToolResult × Store × List Effect :=
  let habitId := getArg args "habit_id"
  let field := getArg args "field"
  let rawValue := getArg args "value"
  if !(jsTruthy habitId) || !(jsTruthy field) || rawValue.isNone then
    ({ success := false, tool_name := "update_habit_state", data := [],
       error := some "Missing required parameters: habit_id, field, value" },
     store, [])
  else
    let value := coerceValue (rawValue.getD .null)
    let fieldS := jvAsString (field.getD .null)
    if !(ALLOWED_FIELDS.contains fieldS) then
      ({ success := false, tool_name := "update_habit_state", data := [],
         error := some ("Field \"" ++ fieldS ++
           "\" is not in the allowed update list") },
       store, [])
    else
      let habitIdS := jvAsString (habitId.getD .null)
      let upd := updateHabitField store habitIdS fieldS value
      match upd.1 with
      | none =>
          ({ success := false, tool_name := "update_habit_state",
             data := [],
             error := some ("Habit \"" ++ habitIdS ++ "\" not found") },
           upd.2.1, upd.2.2)
      | some _ =>
          ({ success := true, tool_name := "update_habit_state",
             data := [("habit_id", habitId.getD .null),
               ("field", .str fieldS), ("value", value),
               ("updated_at", .num now)],
             error := none },
           upd.2.1, upd.2.2)

/-- A registered handler, as invoked by the executor. -/
abbrev ToolHandler :=
  List (String × JValue) → Store → ℚ → ToolResult × Store × List Effect

/-- `TOOL_HANDLERS` from `src/core/tools/ToolExecutor.ts`: exactly four
registered handlers. -/
def TOOL_HANDLERS : List (String × ToolHandler) :=
  [("send_nudge", handleSendNudge),
   ("update_habit_state", handleUpdateHabitState),
   ("increase_cooldown", handleIncreaseCooldown),
   ("delay_nudge", handleDelayNudge)]

/-- `Object.keys(TOOL_HANDLERS)`. -/
def registeredToolNames : List String := TOOL_HANDLERS.map Prod.fst

/-- The unknown-tool error message, enumerating every registered name. -/
def unknownToolError (name : String) : String :=
  "Unknown tool: \"" ++ name ++ "\". Available: " ++
    String.intercalate ", " registeredToolNames

/-- `ToolExecutor.execute`: dispatch to exactly one handler, or fail with
the unknown-tool message.  The effect trace records the handler
invocation itself ahead of the handler's own side effects. -/
def execute (call : ToolCall) (store : Store) (now : ℚ) :
    ToolResult × Store × List Effect :=
  match alistLookup TOOL_HANDLERS call.name with
  | none =>
      ({ success := false, tool_name := call.name, data := [],
         error := some (unknownToolError call.name) },
       store, [])
  | some handler =>
      let r := handler call.arguments store now
      (r.1, r.2.1, .handlerInvoked call.name :: r.2.2)

/-- `needle` occurs at the start of the character list. -/
def startsWithChars : List Char → List Char → Bool
  | _, [] => true
  | [], _ :: _ => false
  | a :: as, b :: bs => a = b && startsWithChars as bs

/-- `needle` occurs somewhere inside the character list. -/
def containsChars (needle : List Char) : List Char → Bool
  | [] => needle.isEmpty
  | c :: rest => startsWithChars (c :: rest) needle || containsChars needle rest

/-- `needle` occurs as a contiguous substring of `hay`. -/
def strContainsSubstring (hay needle : String) : Bool :=
  containsChars needle.data hay.data

theorem containsChars_append_left (needle pre tail : List Char)
    (h : containsChars needle tail = true) :
    containsChars needle (pre ++ tail) = true := by
  induction pre with
  | nil => simpa using h
  | cons c pre ih =>
      simp only [List.cons_append, containsChars, List.append_eq, ih,
        Bool.or_true]

/-- C7: a tool call whose name has no registered handler yields a failure
result whose error message contains every registered tool name, the
store is untouched and no handler is invoked (empty effect trace). -/
theorem execute_unknown_tool :
    ∀ (call : ToolCall) (store : Store) (now : ℚ),
      alistLookup TOOL_HANDLERS call.name = none →
      (execute call store now).1.success = false ∧
      (execute call store now).1.error =
        some (unknownToolError call.name) ∧
      (∀ n ∈ registeredToolNames,
        strContainsSubstring (unknownToolError call.name) n = true) ∧
      (execute call store now).2.1 = store ∧
      (execute call store now).2.2 = [] := by
  intro call store now hnone
  have hjoin : ∀ m ∈ registeredToolNames,
      containsChars m.data
        (String.intercalate ", " registeredToolNames).data = true := by
    decide
  refine ⟨?_, ?_, ?_, ?_, ?_⟩
  · simp [execute, hnone]
  · simp [execute, hnone]
  · intro n hn
    rw [strContainsSubstring]
    simp only [unknownToolError, String.data_append, List.append_assoc]
    exact containsChars_append_left _ _ _
      (containsChars_append_left _ _ _
        (containsChars_append_left _ _ _ (hjoin n hn)))
  · simp [execute, hnone]
  · simp [execute, hnone]

/-- Witness for `execute_unknown_tool` at the unregistered name "foo". -/
theorem execute_unknown_tool_witness :
    (execute ⟨"foo", []⟩ [] 0).1.success = false ∧
    (execute ⟨"foo", []⟩ [] 0).1.error =
      some (unknownToolError "foo") ∧
    (∀ n ∈ registeredToolNames,
      strContainsSubstring (unknownToolError "foo") n = true) ∧
    (execute ⟨"foo", []⟩ [] 0).2.1 = ([] : Store) ∧
    (execute ⟨"foo", []⟩ [] 0).2.2 = [] :=
  execute_unknown_tool ⟨"foo", []⟩ [] 0 rfl

/-- The `required` parameter lists of the four registered tools, from
`TOOL_DEFINITIONS` (src/core/tools/definitions.ts). -/
def requiredParamsOf (name : String) : Option (List String) :=
  if name = "send_nudge" then some ["habit_id", "tone", "message"]
  else if name = "update_habit_state" then
    some ["habit_id", "field", "value"]
  else if name = "increase_cooldown" then some ["habit_id", "minutes"]
  else if name = "delay_nudge" then some ["habit_id", "reason"]
  else none

theorem handleSendNudge_missing (args : List (String × JValue))
    (store : Store) (now : ℚ) (req : String)
    (hreq : req ∈ ["habit_id", "tone", "message"])
    (hmiss : alistLookup args req = none) :
    handleSendNudge args store now =
      ({ success := false, tool_name := "send_nudge", data := [],
         error := some "Missing required parameters: habit_id, tone, message" },
       store, []) := by
  fin_cases hreq <;> simp_all [handleSendNudge, getArg, jsTruthy]

theorem handleDelayNudge_missing (args : List (String × JValue))
    (store : Store) (now : ℚ) (req : String)
    (hreq : req ∈ ["habit_id", "reason"])
    (hmiss : alistLookup args req = none) :
    handleDelayNudge args store now =
      ({ success := false, tool_name := "delay_nudge", data := [],
         error := some "Missing required parameters: habit_id, reason" },
       store, []) := by
  fin_cases hreq <;> simp_all [handleDelayNudge, getArg, jsTruthy]

theorem handleIncreaseCooldown_missing (args : List (String × JValue))
    (store : Store) (now : ℚ) (req : String)
    (hreq : req ∈ ["habit_id", "minutes"])
    (hmiss : alistLookup args req = none) :
    handleIncreaseCooldown args store now =
      ({ success := false, tool_name := "increase_cooldown", data := [],
         error := some
           "Missing or invalid parameters: habit_id (string), minutes (positive number)" },
       store, []) := by
  fin_cases hreq <;>
    simp_all [handleIncreaseCooldown, getArg, jsTruthy, jsToNumber]

theorem handleUpdateHabitState_missing (args : List (String × JValue))
    (store : Store) (now : ℚ) (req : String)
    (hreq : req ∈ ["habit_id", "field", "value"])
    (hmiss : alistLookup args req = none) :
    handleUpdateHabitState args store now =
      ({ success := false, tool_name := "update_habit_state", data := [],
         error := some "Missing required parameters: habit_id, field, value" },
       store, []) := by
  fin_cases hreq <;> simp_all [handleUpdateHabitState, getArg, jsTruthy]

/-- C2 — counterexample to the claim as stated: for the registered tool
`send_nudge` called with `tone` and `message` omitted, the executor does
return a failure, but the registered handler IS invoked — its call count
in the trace is 1, not 0.  The validation lives inside the handler, not
in `ToolExecutor.execute`. -/
theorem execute_missing_param_invokes_handler :
    (execute ⟨"send_nudge", [("habit_id", .str "gym")]⟩ [] 0).1.success =
      false ∧
    ((execute ⟨"send_nudge", [("habit_id", .str "gym")]⟩ [] 0).2.2.count
      (.handlerInvoked "send_nudge") = 1) :=
  ⟨rfl, rfl⟩

/-- C2 (amended): for every registered tool call whose arguments omit a
required parameter, `execute` returns a failure result (success=false)
and no side effect occurs — the store is unchanged and the effect trace
consists solely of the single handler invocation (the registered handler
is invoked exactly once, performing the validation itself and touching
nothing). -/
theorem execute_missing_required_param :
    ∀ (name req : String) (reqs : List String)
      (args : List (String × JValue)) (store : Store) (now : ℚ),
      requiredParamsOf name = some reqs →
      req ∈ reqs →
      alistLookup args req = none →
      (execute ⟨name, args⟩ store now).1.success = false ∧
      (execute ⟨name, args⟩ store now).2.1 = store ∧
      (execute ⟨name, args⟩ store now).2.2 = [.handlerInvoked name] := by
  intro name req reqs args store now hfind hmem hmiss
  unfold requiredParamsOf at hfind
  split_ifs at hfind with h1 h2 h3 h4
  · subst h1
    obtain rfl : reqs = ["habit_id", "tone", "message"] := by
      simpa using hfind.symm
    simp [execute, alistLookup, TOOL_HANDLERS,
      handleSendNudge_missing args store now req hmem hmiss]
  · subst h2
    obtain rfl : reqs = ["habit_id", "field", "value"] := by
      simpa using hfind.symm
    simp [execute, alistLookup, TOOL_HANDLERS,
      handleUpdateHabitState_missing args store now req hmem hmiss]
  · subst h3
    obtain rfl : reqs = ["habit_id", "minutes"] := by
      simpa using hfind.symm
    simp [execute, alistLookup, TOOL_HANDLERS,
      handleIncreaseCooldown_missing args store now req hmem hmiss]
  · subst h4
    obtain rfl : reqs = ["habit_id", "reason"] := by
      simpa using hfind.symm
    simp [execute, alistLookup, TOOL_HANDLERS,
      handleDelayNudge_missing args store now req hmem hmiss]

/-- Witness for `execute_missing_required_param`: `send_nudge` with only
`habit_id` supplied fails without any side effect, the handler having
been invoked once. -/
theorem execute_missing_required_param_witness :
    (execute ⟨"send_nudge", [("habit_id", .str "gym")]⟩ [] 1).1.success =
      false ∧
    (execute ⟨"send_nudge", [("habit_id", .str "gym")]⟩ [] 1).2.1 =
      ([] : Store) ∧
    (execute ⟨"send_nudge", [("habit_id", .str "gym")]⟩ [] 1).2.2 =
      [.handlerInvoked "send_nudge"] :=
  execute_missing_required_param "send_nudge" "tone" _ _ [] 1 rfl
    (by simp) rfl

end FunkyGemma
